import Mathlib

/-!
Verification development for the imaging app's service layer
(`services/geminiService.ts` together with `types.ts`).

The embedding models text as Lean `String` / `List Char`.  JavaScript's
`\s` character class and `String.prototype.trim` are modelled by the
ASCII whitespace characters (space, tab, line feed, carriage return,
vertical tab, form feed); all inputs handled by the claims are ASCII.
Regular-expression steps of the source are embedded by direct scanning
functions mirroring the behaviour of the concrete regexes used there
(leftmost match, case-insensitive label matching, greedy `\s*`, lazy
capture bounded by a lookahead or end of input).
-/

namespace ImagingApp

/-- ASCII lower-casing of one character (the effect of the `i` regex flag
on the ASCII labels `FACTS:` and `IMAGE_PROMPT:`). -/
def asciiLower (c : Char) : Char :=
  if 'A' ≤ c ∧ c ≤ 'Z' then Char.ofNat (c.toNat + 32) else c

/-- Case-insensitive character comparison. -/
def ciEq (a b : Char) : Bool :=
  asciiLower a = asciiLower b

/-- JavaScript `\s` restricted to ASCII: space, tab, LF, CR, VT, FF. -/
def isWs (c : Char) : Bool :=
  c = ' ' || c = '\t' || c = '\n' || c = '\r' || c = Char.ofNat 11 || c = Char.ofNat 12

/-- Greedy `\s*`: drop the maximal leading whitespace run. -/
def skipWs (l : List Char) : List Char :=
  l.dropWhile isWs

/-- JavaScript `String.prototype.trim` (ASCII whitespace). -/
def jsTrim (l : List Char) : List Char :=
  ((l.dropWhile isWs).reverse.dropWhile isWs).reverse

/-- Does `text` start with `pat`, comparing characters case-insensitively? -/
def ciStartsWith : List Char → List Char → Bool
  | [], _ => true
  | _ :: _, [] => false
  | p :: ps, c :: cs => ciEq p c && ciStartsWith ps cs

/-- Text after the first (leftmost) case-insensitive occurrence of `pat`,
or `none` when `pat` does not occur.  This is the regex engine's
leftmost-match rule for a pattern beginning with the literal `pat`. -/
def findAfterCI (pat : List Char) : List Char → Option (List Char)
  | [] => none
  | c :: cs =>
    if ciStartsWith pat (c :: cs) then some (List.drop pat.length (c :: cs))
    else findAfterCI pat cs

/-- Characters before the first case-insensitive occurrence of `pat`
(the whole text when `pat` does not occur): the lazy capture
`([\s\S]*?)` bounded by the lookahead `(?=pat|$)`. -/
def takeUntilCI (pat : List Char) : List Char → List Char
  | [] => []
  | c :: cs =>
    if ciStartsWith pat (c :: cs) then []
    else c :: takeUntilCI pat cs

/-- The section label `FACTS:`. -/
def factsLabel : List Char := "FACTS:".data

/-- The section label `IMAGE_PROMPT:`. -/
def promptLabel : List Char := "IMAGE_PROMPT:".data

/-- JavaScript `String.prototype.split('\n')`. -/
def splitLines : List Char → List (List Char)
  | [] => [[]]
  | c :: cs =>
    if c = '\n' then [] :: splitLines cs
    else
      match splitLines cs with
      | [] => [[c]]
      | l :: ls => (c :: l) :: ls

/-- Embeds `f.replace(/^-\s*/, '')`: strip one leading `-` and the whitespace
run after it. -/
def stripBullet (l : List Char) : List Char :=
  match l with
  | '-' :: rest => skipWs rest
  | _ => l

/-- Embeds `getLevelInstruction` from the service module.  TypeScript narrows
`ComplexityLevel` to seven string literals, but the runtime `switch`
compares strings, so the embedding keeps `String` and the `default`
branch. -/
def getLevelInstruction (level : String) : String :=
  if level = "General Audience" then
    "Target Audience: General Public (News Segment). Style: Clear, engaging, high-level overview. Large text, iconic imagery. Focus on the \x27Big Picture\x27."
  else if level = "Investor" then
    "Target Audience: Investors. Style: Financial Report. Professional, data-driven, clear trends, ROI focus. Emphasize growth and opportunity."
  else if level = "Analyst" then
    "Target Audience: Market Analysts. Style: Deep Dive. Dense data, complex charts, correlations, detailed annotations. Focus on accuracy and data density."
  else if level = "Executive Leadership" then
    "Target Audience: C-Suite / Board of Directors. Style: Strategic, high-level KPIs, polished, actionable insights. Concise, impactful, decision-oriented."
  else if level = "Legal" then
    "Target Audience: Legal Professionals & Regulators. Style: Formal, structured, hierarchical. Focus on compliance, frameworks, and flow of logic. Trustworthy and precise."
  else if level = "Sustainability" then
    "Target Audience: ESG Stakeholders. Style: Eco-conscious, organic data visualization. Earth tones, focus on environmental impact, circular economy, and social responsibility."
  else if level = "Startup / VC" then
    "Target Audience: VCs & Founders. Style: Pitch Deck Aesthetic. Modern, disruptive, high-growth visualization. Bold colors, simplified metrics, \x27Unicorn\x27 energy."
  else
    "Target Audience: General Public. Style: Broadcast quality."

/-- Embeds `getStyleInstruction` from the service module. -/
def getStyleInstruction (style : String) : String :=
  if style = "Broadcast" then
    "Aesthetic: TV News Graphics. High contrast, vibrant, glossy, 16:9 composition, safe areas, lower thirds style labels, 3D elements on 2D planes."
  else if style = "Editorial" then
    "Aesthetic: High-end Magazine (Bloomberg/Economist). Clean typography, sophisticated color palette, flat infographic style, ample whitespace."
  else if style = "Cinematic" then
    "Aesthetic: Documentary Still. Photorealistic, dramatic lighting, depth of field, 8k resolution, cinematic color grading."
  else if style = "Explainer" then
    "Aesthetic: Motion Graphics style. Flat vector 2.0, clean lines, bright modern colors, simplified geometry, clear visual metaphors."
  else if style = "Corporate" then
    "Aesthetic: Annual Report. Clean white background, corporate blues/greys, professional, trustworthy, structured grids."
  else if style = "Terminal" then
    "Aesthetic: Bloomberg Terminal. Dark background, neon data points, dense information, grid systems, monospace fonts."
  else if style = "Studio" then
    "Aesthetic: 3D Studio Render. Isometric view, claymorphism or glassmorphism, soft studio lighting, high fidelity materials."
  else if style = "Whiteboard" then
    "Aesthetic: Strategy Session. Hand-drawn markers on whiteboard, diagrams, flowcharts, messy but genius, napkin math style."
  else
    "Aesthetic: Broadcast quality infographic."

/-- The `systemPrompt` template literal assembled by
`researchTopicForPrompt` (blank template lines carry the template's
four-space indentation). -/
def systemPrompt (topic level style language : String) : String :=
  "\n    You are a Senior Visual Producer for InvestMediaPro.\n    Your goal is to research the topic: \"" ++
  topic ++
  "\" and create a plan for a broadcast-grade infographic.\n    \n    **IMPORTANT: Use the Google Search tool to find the most accurate, up-to-date information about this topic.**\n    \n    Context:\n    " ++
  getLevelInstruction level ++
  "\n    " ++
  getStyleInstruction style ++
  "\n    Language: " ++
  language ++
  "\n    \n    Please provide your response in the following format EXACTLY:\n    \n    FACTS:\n    - [Fact 1]\n    - [Fact 2]\n    - [Fact 3]\n    \n    IMAGE_PROMPT:\n    [A highly detailed image generation prompt describing the visual composition, colors, and layout for the infographic. Ensure it sounds like a design brief for a high-end motion graphics team. Do not include citations in the prompt.]\n  "

/-- The trimmed capture of `/FACTS:\s*([\s\S]*?)(?=IMAGE_PROMPT:|$)/i`
applied to the raw reply (`factsRaw` in the source; `[]` when the regex
does not match, i.e. the `""` default). -/
def factsRaw (text : String) : List Char :=
  match findAfterCI factsLabel text.data with
  | none => []
  | some after => jsTrim (takeUntilCI promptLabel (skipWs after))

/-- The full processed facts pipeline before `.slice(0, 5)`:
`factsRaw.split('\n').map(f => f.replace(/^-\s*/, '').trim()).filter(f => f.length > 0)`. -/
def allFactLines (text : String) : List String :=
  (((splitLines (factsRaw text)).map (fun f => jsTrim (stripBullet f))).filter
    (fun f => f.length > 0)).map String.mk

/-- Embeds `facts` as returned by `researchTopicForPrompt`
(the pipeline above followed by `.slice(0, 5)`). -/
def parseFacts (text : String) : List String :=
  (allFactLines text).take 5

/-- The synthesized fallback prompt
`` `Create a detailed infographic about ${topic}. ${levelInstr} ${styleInstr}` ``. -/
def defaultPrompt (topic level style : String) : String :=
  "Create a detailed infographic about " ++ topic ++ ". " ++
  getLevelInstruction level ++ " " ++ getStyleInstruction style

/-- Embeds `imagePrompt` as returned by `researchTopicForPrompt`: the trimmed
capture of `/IMAGE_PROMPT:\s*([\s\S]*?)$/i` when the label occurs,
otherwise the synthesized default. -/
def parseImagePrompt (text topic level style : String) : String :=
  match findAfterCI promptLabel text.data with
  | none => defaultPrompt topic level style
  | some after => String.mk (jsTrim (skipWs after))

/-- Embeds `SearchResultItem` from `types.ts`. -/
structure SearchResultItem where
  title : String
  url : String
deriving DecidableEq, Repr

/-- The `web` field of a grounding chunk: optional `uri` and `title`. -/
structure GroundingWeb where
  uri : Option String
  title : Option String
deriving DecidableEq, Repr

/-- A grounding citation chunk with its optional `web` part. -/
structure GroundingChunk where
  web : Option GroundingWeb
deriving DecidableEq, Repr

/-- The `forEach` push loop of `researchTopicForPrompt`: keep chunks
whose `web.uri` and `web.title` are both present and truthy (JavaScript
`&&` on strings treats the empty string as false). -/
def extractSearchResults (chunks : List GroundingChunk) : List SearchResultItem :=
  chunks.foldl
    (fun acc c =>
      match c.web with
      | none => acc
      | some w =>
        match w.uri, w.title with
        | some u, some t =>
          if u ≠ "" ∧ t ≠ "" then acc ++ [{ title := t, url := u }] else acc
        | _, _ => acc)
    []

/-- One `Map.prototype.set` step on an association list in insertion
order: an existing key keeps its position but its value is replaced;
a new key is appended. -/
def jsMapSet (m : List (String × SearchResultItem)) (k : String)
    (v : SearchResultItem) : List (String × SearchResultItem) :=
  if m.any (fun p => p.1 = k) then
    m.map (fun p => if p.1 = k then (k, v) else p)
  else
    m ++ [(k, v)]

/-- Embeds `new Map(entries)`: insert the key/value pairs left to right. -/
def jsMapOfEntries (entries : List (String × SearchResultItem)) :
    List (String × SearchResultItem) :=
  entries.foldl (fun m p => jsMapSet m p.1 p.2) []

/-- Embeds `Array.from(new Map(searchResults.map(item => [item.url, item])).values())`. -/
def uniqueResults (l : List SearchResultItem) : List SearchResultItem :=
  (jsMapOfEntries (l.map (fun item => (item.url, item)))).map Prod.snd

/-- Embeds `searchResults` as returned by `researchTopicForPrompt`, from the
grounding chunks of the reply. -/
def researchSearchResults (chunks : List GroundingChunk) : List SearchResultItem :=
  uniqueResults (extractSearchResults chunks)

/-- First-occurrence deduplication of a key sequence, in first-seen
order (the reference shape for the url column of `uniqueResults`). -/
def firstSeenKeys (ks : List String) : List String :=
  ks.foldl (fun acc k => if k ∈ acc then acc else acc ++ [k]) []

/-- Result record of `verifyInfographicAccuracy`. -/
structure VerifyResult where
  isAccurate : Bool
  critique : String
deriving DecidableEq, Repr

/-- Embeds `verifyInfographicAccuracy`: the body issues no request and returns
a constant.  The second component records the outbound calls the body
performs, which is the empty list. -/
def verifyInfographicAccuracy (imageBase64 topic level style language : String) :
    VerifyResult × List String :=
  ({ isAccurate := true, critique := "Verification bypassed." }, [])

/-- Is `p` a literal prefix of `s`? -/
def startsWithChars : List Char → List Char → Bool
  | [], _ => true
  | _ :: _, [] => false
  | p :: ps, c :: cs => p = c && startsWithChars ps cs

/-- Embeds `imageBase64.replace(/^data:image\/(png|jpeg|jpg);base64,/, '')`:
strip one anchored data-URI prefix when present (the three mime
alternatives are mutually exclusive, so alternation order is
irrelevant). -/
def stripDataUriPrefix (s : List Char) : List Char :=
  if startsWithChars "data:image/png;base64,".data s then
    s.drop "data:image/png;base64,".data.length
  else if startsWithChars "data:image/jpeg;base64,".data s then
    s.drop "data:image/jpeg;base64,".data.length
  else if startsWithChars "data:image/jpg;base64,".data s then
    s.drop "data:image/jpg;base64,".data.length
  else s

/-- A video-generation operation handle: the `done` flag and the
flattened `response?.generatedVideos?.[0]?.video?.uri` chain. -/
structure VideosOperation where
  done : Bool
  resultUri : Option String
deriving DecidableEq, Repr

/-- The interval of `setTimeout(resolve, 5000)` in the polling loop. -/
def POLL_INTERVAL_MS : Nat := 5000

/-- The `while (!operation.done)` loop of `generateVideoFromImage`.
`statuses` scripts the successive replies of
`ai.operations.getVideosOperation`; each iteration suspends for
`POLL_INTERVAL_MS` and then queries once.  Returns the terminal
operation, the number of status queries issued, and the trace of
suspensions preceding them; `none` models the loop running forever
(the script exhausted with `done` still false). -/
def pollVideosOperation (op : VideosOperation) (statuses : List VideosOperation) :
    Option (VideosOperation × Nat × List Nat) :=
  if op.done then some (op, 0, [])
  else
    match statuses with
    | [] => none
    | next :: rest =>
      match pollVideosOperation next rest with
      | none => none
      | some (f, n, sleeps) => some (f, n + 1, POLL_INTERVAL_MS :: sleeps)

/-- The motion prompt chosen by `generateVideoFromImage` from the video
style (`Cinematic` versus everything else). -/
def videoPrompt (style : String) : String :=
  if style = "Cinematic" then
    "Cinematic slow pan and zoom across the image details, Ken Burns effect, highly detailed 4k output, smooth broadcast motion, emphasize data points."
  else
    "Dynamic broadcast camera movement, slight parallax, data visualization motion, professional news segment intro style, 4k."

/-- The image payload submitted by `generateVideoFromImage` after
stripping the data-URI prefix. -/
def cleanVideoImage (imageBase64 : String) : String :=
  String.mk (stripDataUriPrefix imageBase64.data)

/-- Embeds `generateVideoFromImage`.  `submit` models
`ai.models.generateVideos` applied to the motion prompt and the cleaned
image bytes (`Except.error` = the submission call throws); `statuses`
scripts the polling replies.  The returned handle stands for the object
URL of the bytes fetched from the result URI with the key appended;
`none` models a never-terminating poll. -/
def generateVideoFromImage (imageBase64 style apiKey : String)
    (submit : String → String → Except String VideosOperation)
    (statuses : List VideosOperation) : Option (Except String String) :=
  match submit (videoPrompt style) (cleanVideoImage imageBase64) with
  | Except.error e => some (Except.error e)
  | Except.ok op =>
    match pollVideosOperation op statuses with
    | none => none
    | some (final, _, _) =>
      match final.resultUri with
      | none => some (Except.error "Video generation failed")
      | some uri => some (Except.ok (uri ++ "&key=" ++ apiKey))

/-- Substring containment: `s` has `p` somewhere inside. -/
def strContains (s p : String) : Prop :=
  ∃ pre post : String, s = pre ++ (p ++ post)

/-- Appending strings concatenates their character data. -/
theorem data_append (a b : String) : (a ++ b).data = a.data ++ b.data := rfl

/-- A string with characters is not the empty string. -/
theorem ne_empty_of_data_ne (s : String) (h : s.data ≠ []) : s ≠ "" := by
  intro hc
  apply h
  rw [hc]

/-- Appending on the right keeps the data non-empty. -/
theorem data_append_ne_nil_left (a b : String) (h : a.data ≠ []) :
    (a ++ b).data ≠ [] := by
  rw [data_append]
  exact List.append_ne_nil_of_left_ne_nil h b.data

/-- Appending on the left keeps the data non-empty. -/
theorem data_append_ne_nil_right (a b : String) (h : b.data ≠ []) :
    (a ++ b).data ≠ [] := by
  rw [data_append]
  exact List.append_ne_nil_of_right_ne_nil a.data h

/-- A containment survives appending on the right. -/
theorem strContains_left (s t p : String) (h : strContains s p) :
    strContains (s ++ t) p := by
  obtain ⟨pre, post, hs⟩ := h
  exact ⟨pre, post ++ t, by rw [hs, String.append_assoc, String.append_assoc]⟩

/-- A containment survives appending on the left. -/
theorem strContains_right (s t p : String) (h : strContains t p) :
    strContains (s ++ t) p := by
  obtain ⟨pre, post, ht⟩ := h
  exact ⟨s ++ pre, post, by rw [ht, String.append_assoc]⟩

/-- A string contains its own right part. -/
theorem strContains_self_right (s p : String) : strContains (s ++ p) p :=
  ⟨s, "", by rw [String.append_empty]⟩

end ImagingApp

namespace ImagingApp

/-- C10: for every input, `verifyInfographicAccuracy` returns the
constant `{isAccurate := true, critique := "Verification bypassed."}`
and issues no outbound call. -/
theorem verifyAccuracy_constant_no_calls
    (imageBase64 topic level style language : String) :
    verifyInfographicAccuracy imageBase64 topic level style language =
      ({ isAccurate := true, critique := "Verification bypassed." }, []) := rfl

/-- C5: on raw text `FACTS:\n- A\n- B\nIMAGE_PROMPT:\nX` the extraction
step yields `facts = ["A", "B"]` and `imagePrompt = "X"`, for every
topic/level/style (the fallback branch is not taken); the section
labels are matched case-insensitively, so the all-lowercase variant
parses identically. -/
theorem parse_example_facts_and_prompt (topic level style : String) :
    (parseFacts "FACTS:\n- A\n- B\nIMAGE_PROMPT:\nX" = ["A", "B"] ∧
      parseImagePrompt "FACTS:\n- A\n- B\nIMAGE_PROMPT:\nX" topic level style = "X") ∧
    (parseFacts "facts:\n- A\n- B\nimage_prompt:\nX" = ["A", "B"] ∧
      parseImagePrompt "facts:\n- A\n- B\nimage_prompt:\nX" topic level style = "X") :=
  ⟨⟨by decide, rfl⟩, ⟨by decide, rfl⟩⟩

/-- Termination of the polling loop implies the returned operation is
done. -/
theorem pollLoop_done (statuses : List VideosOperation) :
    ∀ (op : VideosOperation) (r : VideosOperation × Nat × List Nat),
      pollVideosOperation op statuses = some r → r.1.done = true := by
  induction statuses with
  | nil =>
    intro op r h
    unfold pollVideosOperation at h
    by_cases hd : op.done
    · simp [hd] at h
      rw [← h]
      exact hd
    · simp [hd] at h
  | cons next rest ih =>
    intro op r h
    unfold pollVideosOperation at h
    by_cases hd : op.done
    · simp [hd] at h
      rw [← h]
      exact hd
    · simp [hd] at h
      rcases hr : pollVideosOperation next rest with _ | r'
      · rw [hr] at h
        simp at h
      · rw [hr] at h
        have := ih next r' hr
        rcases r' with ⟨f, n, t⟩
        simp at h
        rw [← h]
        exact this

/-- The suspension trace of the polling loop is one fixed interval per
status query. -/
theorem pollLoop_sleeps (statuses : List VideosOperation) :
    ∀ (op : VideosOperation) (r : VideosOperation × Nat × List Nat),
      pollVideosOperation op statuses = some r →
      r.2.2 = List.replicate r.2.1 POLL_INTERVAL_MS := by
  induction statuses with
  | nil =>
    intro op r h
    unfold pollVideosOperation at h
    by_cases hd : op.done
    · simp [hd] at h
      rw [← h]
      rfl
    · simp [hd] at h
  | cons next rest ih =>
    intro op r h
    unfold pollVideosOperation at h
    by_cases hd : op.done
    · simp [hd] at h
      rw [← h]
      rfl
    · simp [hd] at h
      rcases hr : pollVideosOperation next rest with _ | r'
      · rw [hr] at h
        simp at h
      · rw [hr] at h
        have := ih next r' hr
        rcases r' with ⟨f, n, t⟩
        simp at h
        rw [← h]
        show POLL_INTERVAL_MS :: t = List.replicate (n + 1) POLL_INTERVAL_MS
        rw [List.replicate_succ]
        exact congrArg _ this

/-- C3: the polling loop only ever returns an operation whose `done`
flag is true, every status query is preceded by one fixed
5000-millisecond suspension, and a job reporting `done = false` twice
and then `done = true` takes exactly 2 intermediate status queries. -/
theorem pollVideosOperation_spec :
    (∀ (op : VideosOperation) (statuses : List VideosOperation) f n t,
        pollVideosOperation op statuses = some (f, n, t) →
        f.done = true ∧ t = List.replicate n POLL_INTERVAL_MS) ∧
    (∀ u : String,
        pollVideosOperation ⟨false, none⟩ [⟨false, none⟩, ⟨true, some u⟩] =
          some (⟨true, some u⟩, 2, [POLL_INTERVAL_MS, POLL_INTERVAL_MS])) :=
  ⟨fun op statuses f n t h =>
    ⟨pollLoop_done statuses op (f, n, t) h, pollLoop_sleeps statuses op (f, n, t) h⟩,
   fun u => rfl⟩

/-- C3 witness: the general parts of `pollVideosOperation_spec`
evaluated on the concrete two-false-then-true job. -/
theorem pollVideosOperation_spec_witness :
    ((⟨true, some "u"⟩ : VideosOperation).done = true ∧
      [POLL_INTERVAL_MS, POLL_INTERVAL_MS] = List.replicate 2 POLL_INTERVAL_MS) ∧
    pollVideosOperation ⟨false, none⟩ [⟨false, none⟩, ⟨true, some "u"⟩] =
      some (⟨true, some "u"⟩, 2, [POLL_INTERVAL_MS, POLL_INTERVAL_MS]) :=
  ⟨pollVideosOperation_spec.1 ⟨false, none⟩ [⟨false, none⟩, ⟨true, some "u"⟩]
      ⟨true, some "u"⟩ 2 [POLL_INTERVAL_MS, POLL_INTERVAL_MS] rfl,
   pollVideosOperation_spec.2 "u"⟩

/-- C4: a terminating `generateVideoFromImage` run fails exactly when
the submission call throws or the completed job carries no result URI;
in particular a terminal operation without an asset locator produces an
error, not a handle. -/
theorem generateVideoFromImage_error_iff (imageBase64 style apiKey : String)
    (submit : String → String → Except String VideosOperation)
    (statuses : List VideosOperation) :
    (∃ e, generateVideoFromImage imageBase64 style apiKey submit statuses =
        some (Except.error e)) ↔
      ((∃ e, submit (videoPrompt style) (cleanVideoImage imageBase64) =
          Except.error e) ∨
       (∃ op f n t,
          submit (videoPrompt style) (cleanVideoImage imageBase64) = Except.ok op ∧
          pollVideosOperation op statuses = some (f, n, t) ∧
          f.resultUri = none)) := by
  unfold generateVideoFromImage
  rcases hs : submit (videoPrompt style) (cleanVideoImage imageBase64) with e | op
  · simp
  · simp
    rcases hp : pollVideosOperation op statuses with _ | ⟨f, n, t⟩
    · simp
    · rcases hu : f.resultUri with _ | uri
      · simp [hu]
      · simp [hu]

/-- The level lookup never returns the empty string (the `default`
branch included). -/
theorem getLevelInstruction_ne_empty (level : String) :
    getLevelInstruction level ≠ "" := by
  unfold getLevelInstruction
  repeat' split
  all_goals decide

/-- The style lookup never returns the empty string (the `default`
branch included). -/
theorem getStyleInstruction_ne_empty (style : String) :
    getStyleInstruction style ≠ "" := by
  unfold getStyleInstruction
  repeat' split
  all_goals decide

/-- C7: for every level and style — the seven/eight mapped values and
any unknown value alike — instruction assembly is total and yields a
non-empty instruction containing the topic, the mapped level
description, and the mapped aesthetic description; the two lookups
never yield an empty description, and any unmapped value falls back to
the generic broadcast-quality description rather than an error. -/
theorem systemPrompt_total_and_contains (topic level style language : String) :
    systemPrompt topic level style language ≠ "" ∧
    strContains (systemPrompt topic level style language) topic ∧
    strContains (systemPrompt topic level style language)
      (getLevelInstruction level) ∧
    strContains (systemPrompt topic level style language)
      (getStyleInstruction style) ∧
    getLevelInstruction level ≠ "" ∧
    getStyleInstruction style ≠ "" ∧
    (level ∉ ["General Audience", "Investor", "Analyst", "Executive Leadership",
        "Legal", "Sustainability", "Startup / VC"] →
      getLevelInstruction level =
        "Target Audience: General Public. Style: Broadcast quality.") ∧
    (style ∉ ["Broadcast", "Editorial", "Cinematic", "Explainer", "Corporate",
        "Terminal", "Studio", "Whiteboard"] →
      getStyleInstruction style = "Aesthetic: Broadcast quality infographic.") := by
  refine ⟨?_, ?_, ?_, ?_, getLevelInstruction_ne_empty level,
    getStyleInstruction_ne_empty style, ?_, ?_⟩
  · exact ne_empty_of_data_ne _ (data_append_ne_nil_right _ _ (by decide))
  · exact strContains_left _ _ _ (strContains_left _ _ _ (strContains_left _ _ _
      (strContains_left _ _ _ (strContains_left _ _ _ (strContains_left _ _ _
        (strContains_left _ _ _ (strContains_self_right _ _)))))))
  · exact strContains_left _ _ _ (strContains_left _ _ _ (strContains_left _ _ _
      (strContains_left _ _ _ (strContains_left _ _ _
        (strContains_self_right _ _)))))
  · exact strContains_left _ _ _ (strContains_left _ _ _ (strContains_left _ _ _
      (strContains_self_right _ _)))
  · intro h
    simp only [List.mem_cons, List.not_mem_nil, or_false, not_or] at h
    simp [getLevelInstruction, h.1, h.2.1, h.2.2.1, h.2.2.2.1, h.2.2.2.2.1,
      h.2.2.2.2.2.1, h.2.2.2.2.2.2]
  · intro h
    simp only [List.mem_cons, List.not_mem_nil, or_false, not_or] at h
    simp [getStyleInstruction, h.1, h.2.1, h.2.2.1, h.2.2.2.1, h.2.2.2.2.1,
      h.2.2.2.2.2.1, h.2.2.2.2.2.2.1, h.2.2.2.2.2.2.2]

/-- C7 witness: the generic fallbacks evaluated at unmapped level and
style values. -/
theorem systemPrompt_total_and_contains_witness :
    getLevelInstruction "Custom Level" =
      "Target Audience: General Public. Style: Broadcast quality." ∧
    getStyleInstruction "Custom Style" =
      "Aesthetic: Broadcast quality infographic." :=
  ⟨(systemPrompt_total_and_contains "T" "Custom Level" "Custom Style"
      "English").2.2.2.2.2.2.1 (by decide),
   (systemPrompt_total_and_contains "T" "Custom Level" "Custom Style"
      "English").2.2.2.2.2.2.2 (by decide)⟩

/-- C8: format deviation never raises an error: a raw reply with no
`FACTS:` label yields the empty facts list, and one with no
`IMAGE_PROMPT:` label yields the synthesized default prompt, which
contains the topic. -/
theorem parse_degrades_gracefully (text topic level style : String) :
    (findAfterCI factsLabel text.data = none → parseFacts text = []) ∧
    (findAfterCI promptLabel text.data = none →
      parseImagePrompt text topic level style = defaultPrompt topic level style ∧
      strContains (defaultPrompt topic level style) topic) := by
  constructor
  · intro h
    unfold parseFacts allFactLines factsRaw
    rw [h]
    rfl
  · intro h
    constructor
    · unfold parseImagePrompt
      rw [h]
    · exact strContains_left _ _ _ (strContains_left _ _ _ (strContains_left _ _ _
        (strContains_left _ _ _ (strContains_self_right _ _))))

/-- C8 witness: a label-free reply degrades to the empty facts list and
the synthesized default prompt. -/
theorem parse_degrades_gracefully_witness :
    parseFacts "hello" = [] ∧
    (parseImagePrompt "hello" "Topic" "Investor" "Broadcast" =
        defaultPrompt "Topic" "Investor" "Broadcast" ∧
      strContains (defaultPrompt "Topic" "Investor" "Broadcast") "Topic") :=
  ⟨(parse_degrades_gracefully "hello" "Topic" "Investor" "Broadcast").1 (by decide),
   (parse_degrades_gracefully "hello" "Topic" "Investor" "Broadcast").2 (by decide)⟩

/-- C9: stripping the data-URI prefix (as the video and edit entry
points do) and re-wrapping the raw payload with the same mime type
reproduces the original data URI, for each of the three accepted mime
types. -/
theorem dataUri_roundTrip (mime payload : String)
    (h : mime = "png" ∨ mime = "jpeg" ∨ mime = "jpg") :
    ("data:image/" ++ mime ++ ";base64,") ++
        cleanVideoImage ("data:image/" ++ mime ++ ";base64," ++ payload) =
      "data:image/" ++ mime ++ ";base64," ++ payload := by
  rcases payload with ⟨d⟩
  rcases h with h | h | h <;> subst h <;> rfl

/-- C9 witness: the round trip at a concrete jpeg payload. -/
theorem dataUri_roundTrip_witness :
    ("data:image/" ++ "jpeg" ++ ";base64,") ++
        cleanVideoImage ("data:image/" ++ "jpeg" ++ ";base64," ++ "QUJD") =
      "data:image/" ++ "jpeg" ++ ";base64," ++ "QUJD" :=
  dataUri_roundTrip "jpeg" "QUJD" (Or.inr (Or.inl rfl))

/-- A packed character list is the empty string exactly when it has no
characters. -/
theorem mk_eq_empty_iff (l : List Char) : String.mk l = "" ↔ l = [] := by
  simp [String.ext_iff]

/-- C6: for every raw reply the facts list has at most 5 entries and no
empty strings, and when the processed fact lines number more than 5,
the result is exactly their first 5, in order. -/
theorem parseFacts_invariants (text : String) :
    (parseFacts text).length ≤ 5 ∧
    (∀ f ∈ parseFacts text, f ≠ "") ∧
    (5 < (allFactLines text).length →
      parseFacts text = (allFactLines text).take 5 ∧
      (parseFacts text).length = 5) := by
  refine ⟨?_, ?_, ?_⟩
  · show ((allFactLines text).take 5).length ≤ 5
    rw [List.length_take]
    exact Nat.min_le_left 5 _
  · intro f hf
    have hmem : f ∈ allFactLines text := List.mem_of_mem_take hf
    unfold allFactLines at hmem
    obtain ⟨l, hl, hfl⟩ := List.mem_map.mp hmem
    have hlen : l.length > 0 := by
      have := List.of_mem_filter hl
      simpa using this
    intro hc
    rw [← hfl, mk_eq_empty_iff] at hc
    rw [hc] at hlen
    simp at hlen
  · intro h
    refine ⟨rfl, ?_⟩
    show ((allFactLines text).take 5).length = 5
    rw [List.length_take]
    omega

/-- C6 witness: a reply with six fact lines keeps exactly the first
five, none empty. -/
theorem parseFacts_invariants_witness :
    (parseFacts "FACTS:\n- f1\n- f2\n- f3\n- f4\n- f5\n- f6").length ≤ 5 ∧
    ("f1" : String) ≠ "" ∧
    (parseFacts "FACTS:\n- f1\n- f2\n- f3\n- f4\n- f5\n- f6" =
        (allFactLines "FACTS:\n- f1\n- f2\n- f3\n- f4\n- f5\n- f6").take 5 ∧
      (parseFacts "FACTS:\n- f1\n- f2\n- f3\n- f4\n- f5\n- f6").length = 5) :=
  ⟨(parseFacts_invariants "FACTS:\n- f1\n- f2\n- f3\n- f4\n- f5\n- f6").1,
   (parseFacts_invariants "FACTS:\n- f1\n- f2\n- f3\n- f4\n- f5\n- f6").2.1 "f1"
     (by decide),
   (parseFacts_invariants "FACTS:\n- f1\n- f2\n- f3\n- f4\n- f5\n- f6").2.2
     (by decide)⟩

/-- Dropping a satisfied prefix leaves nothing exactly when every
element satisfies the predicate. -/
theorem dropWhile_eq_nil_iff_all (p : Char → Bool) (l : List Char) :
    l.dropWhile p = [] ↔ l.all p := by
  induction l with
  | nil => simp
  | cons c cs ih => by_cases h : p c <;> simp [List.dropWhile, h, ih]

/-- Dropping a satisfied prefix does not change whether all elements
satisfy the predicate. -/
theorem all_dropWhile (p : Char → Bool) (l : List Char) :
    (l.dropWhile p).all p = l.all p := by
  induction l with
  | nil => rfl
  | cons c cs ih => by_cases h : p c <;> simp [List.dropWhile, h, ih]

/-- Trimming yields the empty list exactly when the list is all
whitespace. -/
theorem jsTrim_eq_nil_iff (l : List Char) :
    jsTrim l = [] ↔ l.all isWs := by
  unfold jsTrim
  rw [List.reverse_eq_nil_iff, dropWhile_eq_nil_iff_all, List.all_reverse,
    all_dropWhile]

/-- C2 (amended): when the raw reply has no `IMAGE_PROMPT:` label,
`imagePrompt` is the synthesized default, which is non-empty; when the
label is present, `imagePrompt` is empty exactly when only whitespace
follows the label.  The original claim fails in that last case. -/
theorem imagePrompt_nonempty_spec (text topic level style : String) :
    (findAfterCI promptLabel text.data = none →
      parseImagePrompt text topic level style = defaultPrompt topic level style ∧
      parseImagePrompt text topic level style ≠ "") ∧
    (∀ rest, findAfterCI promptLabel text.data = some rest →
      (parseImagePrompt text topic level style = "" ↔ rest.all isWs = true)) := by
  constructor
  · intro h
    have heq : parseImagePrompt text topic level style = defaultPrompt topic level style := by
      unfold parseImagePrompt
      rw [h]
    refine ⟨heq, ?_⟩
    rw [heq]
    exact ne_empty_of_data_ne _
      (data_append_ne_nil_left _ _ (data_append_ne_nil_left _ _
        (data_append_ne_nil_left _ _ (data_append_ne_nil_left _ _
          (data_append_ne_nil_left _ _ (by decide))))))
  · intro rest h
    unfold parseImagePrompt
    rw [h]
    show String.mk (jsTrim (skipWs rest)) = "" ↔ rest.all isWs = true
    rw [mk_eq_empty_iff, jsTrim_eq_nil_iff]
    show (rest.dropWhile isWs).all isWs = true ↔ rest.all isWs = true
    rw [all_dropWhile]

/-- C2 witness: the amended claim evaluated on a label-free reply and
on a reply whose label is followed by non-blank text. -/
theorem imagePrompt_nonempty_spec_witness :
    (parseImagePrompt "plain reply" "Topic" "Investor" "Broadcast" =
        defaultPrompt "Topic" "Investor" "Broadcast" ∧
      parseImagePrompt "plain reply" "Topic" "Investor" "Broadcast" ≠ "") ∧
    (parseImagePrompt "IMAGE_PROMPT: hi" "Topic" "Investor" "Broadcast" = "" ↔
      " hi".data.all isWs = true) :=
  ⟨(imagePrompt_nonempty_spec "plain reply" "Topic" "Investor" "Broadcast").1
      (by decide),
   (imagePrompt_nonempty_spec "IMAGE_PROMPT: hi" "Topic" "Investor" "Broadcast").2
      " hi".data (by decide)⟩

/-- C2 counterexample: a reply consisting of the bare `IMAGE_PROMPT:`
label (whitespace-only tail) produces the empty image prompt, refuting
the claim that `imagePrompt` is always non-empty. -/
theorem imagePrompt_empty_counterexample :
    parseImagePrompt "IMAGE_PROMPT:" "Quantum computing" "Investor" "Broadcast" =
      "" := by
  decide

/-- One map insertion either keeps the key column or appends the new
key at the end. -/
theorem map_fst_jsMapSet (m : List (String × SearchResultItem)) (k : String)
    (v : SearchResultItem) :
    (jsMapSet m k v).map Prod.fst =
      if k ∈ m.map Prod.fst then m.map Prod.fst else m.map Prod.fst ++ [k] := by
  have hmem : (m.any fun p => p.1 = k) = true ↔ k ∈ m.map Prod.fst := by
    simp [List.any_eq_true, List.mem_map]
  unfold jsMapSet
  by_cases h : k ∈ m.map Prod.fst
  · rw [if_pos (hmem.mpr h), if_pos h, List.map_map]
    apply List.map_congr_left
    intro p hp
    by_cases hpk : p.1 = k <;> simp [hpk]
  · rw [if_neg (fun hc => h (hmem.mp hc)), if_neg h]
    simp

/-- The key column of the built map is the first-seen deduplication of
the inserted keys. -/
theorem map_fst_jsMapFold (entries : List (String × SearchResultItem)) :
    ∀ m, ((entries.foldl (fun m p => jsMapSet m p.1 p.2) m).map Prod.fst) =
      (entries.map Prod.fst).foldl
        (fun acc k => if k ∈ acc then acc else acc ++ [k]) (m.map Prod.fst) := by
  induction entries with
  | nil => intro m; rfl
  | cons e es ih =>
    intro m
    simp only [List.foldl_cons, List.map_cons]
    rw [ih (jsMapSet m e.1 e.2), map_fst_jsMapSet]

/-- Insertion preserves the invariant that the stored value carries its
own key as url. -/
theorem wf_jsMapSet (m : List (String × SearchResultItem)) (k : String)
    (v : SearchResultItem) (hm : ∀ p ∈ m, p.2.url = p.1) (hv : v.url = k) :
    ∀ p ∈ jsMapSet m k v, p.2.url = p.1 := by
  intro p hp
  unfold jsMapSet at hp
  by_cases h : (m.any fun q => q.1 = k) = true
  · rw [if_pos h] at hp
    obtain ⟨q, hq, hqp⟩ := List.mem_map.mp hp
    by_cases hqk : q.1 = k
    · rw [if_pos hqk] at hqp
      rw [← hqp]
      exact hv
    · rw [if_neg hqk] at hqp
      rw [← hqp]
      exact hm q hq
  · rw [if_neg h] at hp
    rcases List.mem_append.mp hp with h1 | h2
    · exact hm p h1
    · have : p = (k, v) := by simpa using h2
      rw [this]
      exact hv

/-- The whole built map satisfies the key/url invariant. -/
theorem wf_jsMapFold (entries : List (String × SearchResultItem)) :
    ∀ m, (∀ p ∈ m, p.2.url = p.1) → (∀ p ∈ entries, p.2.url = p.1) →
      ∀ p ∈ entries.foldl (fun m p => jsMapSet m p.1 p.2) m, p.2.url = p.1 := by
  induction entries with
  | nil =>
    intro m hm _ p hp
    exact hm p hp
  | cons e es ih =>
    intro m hm he p hp
    simp only [List.foldl_cons] at hp
    exact ih (jsMapSet m e.1 e.2)
      (wf_jsMapSet m e.1 e.2 hm (he e (List.mem_cons_self e es)))
      (fun q hq => he q (List.mem_cons_of_mem e hq)) p hp

/-- Every pair of the map after an insertion was already present or is
the inserted pair. -/
theorem mem_jsMapSet (m : List (String × SearchResultItem)) (k : String)
    (v : SearchResultItem) (q : String × SearchResultItem)
    (hq : q ∈ jsMapSet m k v) : q ∈ m ∨ q = (k, v) := by
  unfold jsMapSet at hq
  by_cases h : (m.any fun p => p.1 = k) = true
  · rw [if_pos h] at hq
    obtain ⟨p, hp, hpq⟩ := List.mem_map.mp hq
    by_cases hpk : p.1 = k
    · rw [if_pos hpk] at hpq
      exact Or.inr hpq.symm
    · rw [if_neg hpk] at hpq
      rw [← hpq]
      exact Or.inl hp
  · rw [if_neg h] at hq
    rcases List.mem_append.mp hq with h1 | h2
    · exact Or.inl h1
    · exact Or.inr (by simpa using h2)

/-- Every pair of the built map comes from the initial map or the
inserted entries. -/
theorem mem_jsMapFold (entries : List (String × SearchResultItem)) :
    ∀ m q, q ∈ entries.foldl (fun m p => jsMapSet m p.1 p.2) m →
      q ∈ m ∨ q ∈ entries := by
  induction entries with
  | nil =>
    intro m q hq
    exact Or.inl hq
  | cons e es ih =>
    intro m q hq
    simp only [List.foldl_cons] at hq
    rcases ih (jsMapSet m e.1 e.2) q hq with h1 | h2
    · rcases mem_jsMapSet m e.1 e.2 q h1 with hm | he
      · exact Or.inl hm
      · rw [he]
        exact Or.inr (List.mem_cons_self _ _)
    · exact Or.inr (List.mem_cons_of_mem e h2)

/-- Lookup in the association-list model of the JavaScript map: the
value of the first pair carrying the key. -/
def jsMapGet (m : List (String × SearchResultItem)) (k : String) :
    Option SearchResultItem :=
  (m.find? (fun p => p.1 = k)).map Prod.snd

/-- Finding is determined by the predicate's values on the list. -/
theorem find?_congr (p q : (String × SearchResultItem) → Bool)
    (l : List (String × SearchResultItem)) (h : ∀ x ∈ l, p x = q x) :
    l.find? p = l.find? q := by
  induction l with
  | nil => rfl
  | cons a as ih =>
    have ha := h a (List.mem_cons_self a as)
    by_cases hp : p a = true
    · rw [List.find?_cons_of_pos as hp, List.find?_cons_of_pos as (ha ▸ hp)]
    · rw [List.find?_cons_of_neg as hp, List.find?_cons_of_neg as (ha ▸ hp)]
      exact ih (fun x hx => h x (List.mem_cons_of_mem a hx))

/-- Replacing the pair at an occurring key makes the new pair the one
found at that key. -/
theorem find?_replaced (m : List (String × SearchResultItem)) (k : String)
    (v : SearchResultItem) (h : (m.any fun p => p.1 = k) = true) :
    (m.map fun p => if p.1 = k then (k, v) else p).find? (fun p => p.1 = k) =
      some (k, v) := by
  induction m with
  | nil => simp at h
  | cons p ps ih =>
    rw [List.map_cons]
    by_cases hpk : p.1 = k
    · rw [if_pos hpk]
      rw [List.find?_cons_of_pos _ (by simp)]
    · rw [if_neg hpk]
      have hps : (ps.any fun p => p.1 = k) = true := by
        simpa [List.any_cons, hpk] using h
      rw [List.find?_cons_of_neg _ (by simp [hpk])]
      exact ih hps

/-- Replacing the pair at one key leaves lookups at other keys
unchanged. -/
theorem find?_keys_other (m : List (String × SearchResultItem)) (k k' : String)
    (v : SearchResultItem) (hne : k' ≠ k) :
    (m.map fun p => if p.1 = k then (k, v) else p).find? (fun p => p.1 = k') =
      m.find? (fun p => p.1 = k') := by
  induction m with
  | nil => rfl
  | cons p ps ih =>
    rw [List.map_cons]
    by_cases hpk : p.1 = k
    · rw [if_pos hpk]
      rw [List.find?_cons_of_neg _
        (by simp only [decide_eq_true_eq]; exact fun hc => hne hc.symm)]
      rw [List.find?_cons_of_neg _
        (by simp only [decide_eq_true_eq]; rw [hpk]; exact fun hc => hne hc.symm)]
      exact ih
    · rw [if_neg hpk]
      by_cases hpk' : p.1 = k'
      · rw [List.find?_cons_of_pos _ (by simp [hpk']),
          List.find?_cons_of_pos _ (by simp [hpk'])]
      · rw [List.find?_cons_of_neg _ (by simp [hpk']),
          List.find?_cons_of_neg _ (by simp [hpk'])]
        exact ih

/-- After one insertion the inserted key maps to the inserted value. -/
theorem jsMapGet_set_self (m : List (String × SearchResultItem)) (k : String)
    (v : SearchResultItem) : jsMapGet (jsMapSet m k v) k = some v := by
  unfold jsMapGet jsMapSet
  by_cases h : (m.any fun p => p.1 = k) = true
  · rw [if_pos h, find?_replaced m k v h]
    rfl
  · rw [if_neg h, List.find?_append]
    have hnone : m.find? (fun p => p.1 = k) = none := by
      rw [List.find?_eq_none]
      intro x hx
      simp only [decide_eq_true_eq]
      intro hxk
      exact h (List.any_eq_true.mpr ⟨x, hx, by simp [hxk]⟩)
    rw [hnone]
    simp [List.find?]

/-- After one insertion the other keys map to their previous values. -/
theorem jsMapGet_set_other (m : List (String × SearchResultItem)) (k k' : String)
    (v : SearchResultItem) (hne : k' ≠ k) :
    jsMapGet (jsMapSet m k v) k' = jsMapGet m k' := by
  unfold jsMapGet jsMapSet
  by_cases h : (m.any fun p => p.1 = k) = true
  · rw [if_pos h, find?_keys_other m k k' v hne]
  · rw [if_neg h, List.find?_append]
    have hone : ([(k, v)].find? fun p => p.1 = k') = none := by
      simp only [List.find?]
      rw [decide_eq_false (fun hc : k = k' => hne hc.symm)]
    rw [hone]
    cases m.find? (fun p => p.1 = k') <;> rfl

/-- Lookup in the built map returns the value of the LAST inserted
entry with that key, falling back to the initial map. -/
theorem jsMapGet_fold (entries : List (String × SearchResultItem)) :
    ∀ (m : List (String × SearchResultItem)) (k : String),
      jsMapGet (entries.foldl (fun m p => jsMapSet m p.1 p.2) m) k =
        match entries.reverse.find? (fun p => p.1 = k) with
        | some p => some p.2
        | none => jsMapGet m k := by
  induction entries with
  | nil =>
    intro m k
    rfl
  | cons e es ih =>
    intro m k
    simp only [List.foldl_cons]
    rw [ih (jsMapSet m e.1 e.2) k, List.reverse_cons, List.find?_append]
    cases hfind : es.reverse.find? (fun p => p.1 = k) with
    | some x => rfl
    | none =>
      by_cases hek : e.1 = k
      · have h1 : ([e].find? fun p => p.1 = k) = some e := by
          simp [List.find?, hek]
        rw [h1, ← hek, jsMapGet_set_self]
        rfl
      · have h1 : ([e].find? fun p => p.1 = k) = none := by
          simp only [List.find?]
          rw [decide_eq_false hek]
        rw [h1, jsMapGet_set_other m e.1 k e.2 (fun hc => hek hc.symm)]
        rfl

/-- The entry `uniqueResults` keeps for each url is the LAST input
entry with that url (lookups on the output agree with lookups on the
reversed input). -/
theorem uniqueResults_find_last (l : List SearchResultItem) (k : String) :
    (uniqueResults l).find? (fun x => x.url = k) =
      l.reverse.find? (fun x => x.url = k) := by
  unfold uniqueResults jsMapOfEntries
  rw [List.find?_map]
  have hwf : ∀ p ∈ (l.map fun i => (i.url, i)).foldl
      (fun m p => jsMapSet m p.1 p.2) [], p.2.url = p.1 := by
    apply wf_jsMapFold _ [] (by simp)
    intro p hp
    obtain ⟨i, _, hi⟩ := List.mem_map.mp hp
    rw [← hi]
  rw [find?_congr _ (fun p => p.1 = k) _ (fun p hp => by
    show decide (p.2.url = k) = decide (p.1 = k)
    rw [hwf p hp])]
  show jsMapGet _ k = _
  rw [jsMapGet_fold, ← List.map_reverse, List.find?_map]
  cases hf : l.reverse.find? ((fun p => decide (p.1 = k)) ∘ fun i => (i.url, i)) with
  | none =>
    have : l.reverse.find? (fun x => x.url = k) = none := hf
    rw [this]
    rfl
  | some i =>
    have : l.reverse.find? (fun x => x.url = k) = some i := hf
    rw [this]
    rfl

/-- First-seen key deduplication yields distinct keys. -/
theorem firstSeenKeys_nodup_aux (ks : List String) :
    ∀ acc : List String, acc.Nodup →
      (ks.foldl (fun acc k => if k ∈ acc then acc else acc ++ [k]) acc).Nodup := by
  induction ks with
  | nil =>
    intro acc h
    exact h
  | cons k ks ih =>
    intro acc h
    simp only [List.foldl_cons]
    by_cases hk : k ∈ acc
    · rw [if_pos hk]
      exact ih acc h
    · rw [if_neg hk]
      exact ih _ (by simp [List.nodup_append, h, hk])

/-- The url column of `uniqueResults` is the first-seen deduplication
of the input url column. -/
theorem uniqueResults_urls (l : List SearchResultItem) :
    (uniqueResults l).map SearchResultItem.url =
      firstSeenKeys (l.map SearchResultItem.url) := by
  unfold uniqueResults jsMapOfEntries firstSeenKeys
  rw [List.map_map]
  have hwf : ∀ p ∈ (l.map fun i => (i.url, i)).foldl
      (fun m p => jsMapSet m p.1 p.2) [], p.2.url = p.1 := by
    apply wf_jsMapFold _ [] (by simp)
    intro p hp
    obtain ⟨i, _, hi⟩ := List.mem_map.mp hp
    rw [← hi]
  refine (List.map_congr_left (fun p hp => hwf p hp)).trans ?_
  rw [map_fst_jsMapFold]
  simp only [List.map_map, List.map_nil]
  rfl

/-- C1 counterexample: on the grounding chunks
`[{uri:"a",title:"T1"}, {uri:"a",title:"T2"}, {uri:"b",title:"T3"}]`
the returned searchResults are NOT
`[{url:"a",title:"T1"}, {url:"b",title:"T3"}]`: the insertion into the
url-keyed map keeps the last occurrence's entry, not the first. -/
theorem searchResults_first_wins_counterexample :
    researchSearchResults
        [⟨some ⟨some "a", some "T1"⟩⟩, ⟨some ⟨some "a", some "T2"⟩⟩,
          ⟨some ⟨some "b", some "T3"⟩⟩] ≠
      [⟨"T1", "a"⟩, ⟨"T3", "b"⟩] := by
  decide

/-- C1 (amended): after discarding chunks missing uri or title, the
searchResults are deduplicated by url with, for every input, the LAST
occurrence's entry winning while keys keep first-seen order: the url
column is the first-seen deduplication of the input urls (hence urls
are pairwise distinct), the entry kept for each url is the last input
entry carrying that url (lookups agree with lookups on the reversed
input), every returned entry is an input entry, and the example input
yields `[{url:"a",title:"T2"}, {url:"b",title:"T3"}]`. -/
theorem searchResults_dedup_spec :
    (researchSearchResults
        [⟨some ⟨some "a", some "T1"⟩⟩, ⟨some ⟨some "a", some "T2"⟩⟩,
          ⟨some ⟨some "b", some "T3"⟩⟩] =
      [⟨"T2", "a"⟩, ⟨"T3", "b"⟩]) ∧
    (∀ l : List SearchResultItem,
      (uniqueResults l).map SearchResultItem.url =
        firstSeenKeys (l.map SearchResultItem.url)) ∧
    (∀ l : List SearchResultItem,
      ((uniqueResults l).map SearchResultItem.url).Nodup) ∧
    (∀ (l : List SearchResultItem) (k : String),
      (uniqueResults l).find? (fun x => x.url = k) =
        l.reverse.find? (fun x => x.url = k)) ∧
    (∀ (l : List SearchResultItem) (x : SearchResultItem),
      x ∈ uniqueResults l → x ∈ l) := by
  refine ⟨by decide, uniqueResults_urls, ?_, uniqueResults_find_last, ?_⟩
  · intro l
    rw [uniqueResults_urls]
    exact firstSeenKeys_nodup_aux _ [] List.nodup_nil
  · intro l x hx
    unfold uniqueResults jsMapOfEntries at hx
    obtain ⟨q, hq, hqx⟩ := List.mem_map.mp hx
    rcases mem_jsMapFold _ [] q hq with h0 | hmem
    · cases h0
    · obtain ⟨i, hi, hiq⟩ := List.mem_map.mp hmem
      rw [← hqx, ← hiq]
      exact hi

/-- C1 witness: the amended claim's membership part evaluated on a
concrete duplicated-url input. -/
theorem searchResults_dedup_spec_witness :
    (⟨"T2", "a"⟩ : SearchResultItem) ∈
      [(⟨"T1", "a"⟩ : SearchResultItem), ⟨"T2", "a"⟩] :=
  searchResults_dedup_spec.2.2.2.2 [⟨"T1", "a"⟩, ⟨"T2", "a"⟩] ⟨"T2", "a"⟩
    (by decide)

end ImagingApp
